import Mathlib

/-!
Verification of the reconciliation state machine and the versioned
configuration synthesis engine of the MongoDB community Kubernetes operator.

The development shallowly embeds:
* `pkg/automationconfig/automation_config_builder.go` (the `Builder` and its
  `Build` method),
* the readiness / upgrade-strategy / annotation logic of
  `pkg/controller/mongodb/mongodb_controller.go` (`Reconcile`,
  `isStatefulSetReady`, `getUpdateStrategyType`, `isChangingVersion`,
  `setAnnotations`),
* the SCRAM credential engine (its implementation file is not part of the
  source tree here, only its tests; it is modelled from the specification).

Machine integers: the automation config version is a Go `int` that starts at
zero and is only ever incremented, so it is represented as `Nat`.
-/

namespace MCO

/-! ## Automation config data model

`automation_config.go` (the struct declarations and their JSON tags) is not
part of the source tree; the structures below are modelled from the
Configuration Document description of the specification (process descriptors,
replica-set topology descriptor, authentication block, TLS block) and from the
fields the builder in `automation_config_builder.go` manipulates. -/

/-- Modelled from the spec: per-member process descriptor (host, data path,
engine version, feature-compatibility version); the `name`/`replSetName`
fields are the ones the builder passes to `newProcess`. -/
structure Process where
  name : String
  hostName : String
  version : String
  replSetName : String
  featureCompatibilityVersion : String
  dataPath : String
deriving DecidableEq, Repr

/-- Modelled from the spec: one member of the replica-set topology
descriptor, with equal voting weight and priority for every member;
`horizons` is the optional per-member horizon map. -/
structure ReplicaSetMember where
  id : Nat
  host : String
  votes : Nat
  priority : Nat
  horizons : Option (List (String × String))
deriving DecidableEq, Repr

/-- Replica-set topology entry as assembled by `Build`. -/
structure ReplicaSet where
  id : String
  members : List ReplicaSetMember
  protocolVersion : String
deriving DecidableEq, Repr

/-- Modelled from the spec: authentication block (enabled mechanisms,
per-user credential references, internal key). -/
structure Auth where
  disabled : Bool
  users : List String
  autoAuthMechanisms : List String
  key : String
deriving DecidableEq, Repr

/-- Modelled from the spec: TLS block (mode, certificate paths). An empty
`mode` means TLS was never configured on the document. -/
structure TLS where
  mode : String
  caFilePath : String
  certificateKeyFilePath : String
  clientCertificateMode : String
deriving DecidableEq, Repr

/-- One build entry of a MongoDB version config (`buildDummyMongoDbVersionConfig`). -/
structure BuildConfig where
  platform : String
  architecture : String
  flavor : String
  modules : List String
deriving DecidableEq, Repr

/-- An installable MongoDB version (`MongoDbVersionConfig`). -/
structure MongoDbVersionConfig where
  name : String
  builds : List BuildConfig
deriving DecidableEq, Repr

/-- Download options of the automation config (`Options`). -/
structure ACOptions where
  downloadBase : String
deriving DecidableEq, Repr

/-- The versioned configuration document (`AutomationConfig`). -/
structure AutomationConfig where
  version : Nat
  processes : List Process
  replicaSets : List ReplicaSet
  versions : List MongoDbVersionConfig
  options : ACOptions
  auth : Auth
  tls : TLS
deriving DecidableEq, Repr

/-- The Go zero value `AutomationConfig{}`: the empty previous document. -/
def emptyAC : AutomationConfig :=
  { version := 0
    processes := []
    replicaSets := []
    versions := []
    options := { downloadBase := "" }
    auth := { disabled := false, users := [], autoAuthMechanisms := [], key := "" }
    tls := { mode := "", caFilePath := "", certificateKeyFilePath := "", clientCertificateMode := "" } }

def ClientCertificateModeOptional : String := "OPTIONAL"

/-- Modelled from the spec: the disabled authentication marker
(`disabledAuth()`), with explicitly empty collections. -/
def disabledAuth : Auth :=
  { disabled := true, users := [], autoAuthMechanisms := [], key := "" }

/-- Function `toHostName` from `automation_config_builder.go`: `fmt.Sprintf("%s-%d", name, index)`. -/
def toHostName (name : String) (index : Nat) : String :=
  name ++ "-" ++ Nat.repr index

/-- Modelled from the spec: `newProcess(name, hostName, version, replSetName,
withFCV(fcv))` from the missing `automation_config.go`, flattening the single
functional option the builder passes. -/
def newProcess (name hostName version replSetName fcv : String) : Process :=
  { name := name
    hostName := hostName
    version := version
    replSetName := replSetName
    featureCompatibilityVersion := fcv
    dataPath := "/data" }

/-- Modelled from the spec: `newReplicaSetMember(process, id, horizons)` from
the missing `automation_config.go`; every member gets equal voting weight and
priority. -/
def newReplicaSetMember (p : Process) (id : Nat)
    (horizons : Option (List (String × String))) : ReplicaSetMember :=
  { id := id, host := p.name, votes := 1, priority := 1, horizons := horizons }

/-- Function `buildDummyMongoDbVersionConfig` from `automation_config_builder.go`. -/
def buildDummyMongoDbVersionConfig (version : String) : MongoDbVersionConfig :=
  { name := version
    builds :=
      [ { platform := "linux", architecture := "amd64", flavor := "rhel", modules := [] },
        { platform := "linux", architecture := "amd64", flavor := "ubuntu", modules := [] } ] }

/-! ## Canonical serialization

`Build` compares `json.Marshal` of the previous document against the fresh
candidate. The JSON struct tags live in the missing `automation_config.go`;
the encoding below is modelled from the spec: a canonical encoding with
deterministic field ordering and explicit omission rules (the TLS block is
absent while TLS was never configured, and empty authentication collections
are omitted rather than emitted as empty structures). The canonical bytes are
represented as the ordered association list of rendered fields; equality of
this list models byte equality of the canonical serialization. -/

def renderStrList (xs : List String) : String :=
  String.intercalate ";" xs

def renderPairs (ps : List (String × String)) : String :=
  String.intercalate "," (ps.map (fun kv => kv.1 ++ "=" ++ kv.2))

def encodeProcess (p : Process) : String :=
  p.name ++ "|" ++ p.hostName ++ "|" ++ p.version ++ "|" ++ p.replSetName ++ "|"
    ++ p.featureCompatibilityVersion ++ "|" ++ p.dataPath

def encodeMember (m : ReplicaSetMember) : String :=
  Nat.repr m.id ++ "|" ++ m.host ++ "|" ++ Nat.repr m.votes ++ "|" ++ Nat.repr m.priority
    ++ "|" ++ (match m.horizons with
               | none => ""
               | some hs => renderPairs hs)

def encodeReplicaSet (rs : ReplicaSet) : String :=
  rs.id ++ "|" ++ String.intercalate ";" (rs.members.map encodeMember)
    ++ "|" ++ rs.protocolVersion

def encodeBuildConfig (bc : BuildConfig) : String :=
  bc.platform ++ "|" ++ bc.architecture ++ "|" ++ bc.flavor ++ "|" ++ renderStrList bc.modules

def encodeVersionConfig (vc : MongoDbVersionConfig) : String :=
  vc.name ++ "|" ++ String.intercalate ";" (vc.builds.map encodeBuildConfig)

/-- Modelled from the spec: the authentication fields of the serialized form;
empty collections are omitted entirely. -/
def encodeAuthFields (a : Auth) : List (String × String) :=
  [("disabled", if a.disabled then "true" else "false")]
    ++ (if a.users.isEmpty then [] else [("users", renderStrList a.users)])
    ++ (if a.autoAuthMechanisms.isEmpty then []
        else [("autoAuthMechanisms", renderStrList a.autoAuthMechanisms)])
    ++ (if a.key = "" then [] else [("key", a.key)])

/-- Modelled from the spec: the TLS block of the serialized form; it is
absent (`none`) while TLS was never configured. -/
def encodeTLSField (t : TLS) : Option String :=
  if t.mode = "" then none
  else some (t.mode ++ "|" ++ t.caFilePath ++ "|" ++ t.certificateKeyFilePath
    ++ "|" ++ t.clientCertificateMode)

/-- Canonical serialization of an automation config: the ordered association
list of rendered fields (deterministic field ordering, omission rules as
above). Equality of this list models `bytes.Equal` of the marshalled JSON. -/
def acBytes (ac : AutomationConfig) : List (String × String) :=
  [ ("version", Nat.repr ac.version),
    ("processes", String.intercalate ";" (ac.processes.map encodeProcess)),
    ("replicaSets", String.intercalate ";" (ac.replicaSets.map encodeReplicaSet)),
    ("mongoDbVersions", String.intercalate ";" (ac.versions.map encodeVersionConfig)),
    ("options", ac.options.downloadBase),
    ("auth", renderPairs (encodeAuthFields ac.auth)) ]
    ++ (match encodeTLSField ac.tls with
        | none => []
        | some s => [("tls", s)])

/-! ## The builder -/

/-- The `Builder` of `automation_config_builder.go`. The `processes`/`replicaSets` fields of the Go struct are never read by `Build` and are omitted.
`modifications` is the list of `Modification` hooks `AddModifications`
appends (no caller in this repository ever adds one). -/
structure Builder where
  replicaSetHorizons : Option (List (List (String × String)))
  members : Nat
  domain : String
  name : String
  fcv : String
  topology : String
  mongodbVersion : String
  previousAC : AutomationConfig
  versions : List MongoDbVersionConfig
  modifications : List (AutomationConfig → AutomationConfig)
  auth : Option Auth

/-- Constructor `NewBuilder()`. -/
def newBuilder : Builder :=
  { replicaSetHorizons := none
    members := 0
    domain := ""
    name := ""
    fcv := ""
    topology := ""
    mongodbVersion := ""
    previousAC := emptyAC
    versions := []
    modifications := []
    auth := none }

/-- One iteration of the `for i, h := range hostnames` loop of `Build`:
the process and replica-set member for member index `i`. Panics on the
unguarded `b.replicaSetHorizons[i]` index are modelled as `none`. -/
def memberAt (name domain version fcv : String)
    (horizons : Option (List (List (String × String)))) (i : Nat) :
    Option (Process × ReplicaSetMember) :=
  let hostname := name ++ "-" ++ Nat.repr i ++ "." ++ domain
  let process := newProcess (toHostName name i) hostname version name fcv
  match horizons with
  | none => some (process, newReplicaSetMember process i none)
  | some hs =>
    match hs.get? i with
    | none => none
    | some h => some (process, newReplicaSetMember process i (some h))

/-- The member-construction loop of `Build` for indices `[0, n)`, in order. -/
def collectMembers (name domain version fcv : String)
    (horizons : Option (List (List (String × String)))) :
    Nat → Option (List (Process × ReplicaSetMember))
  | 0 => some []
  | n + 1 =>
    match collectMembers name domain version fcv horizons n with
    | none => none
    | some xs =>
      match memberAt name domain version fcv horizons n with
      | none => none
      | some x => some (xs ++ [x])

def applyModifications : List (AutomationConfig → AutomationConfig) →
    AutomationConfig → AutomationConfig
  | [], ac => ac
  | f :: fs, ac => applyModifications fs (f ac)

/-- The candidate document `Build` assembles before the version comparison,
with the version field left at zero (the caller installs
`previousAC.version`): processes and members from the loop, exactly one
replica-set entry, dummy versions when none were added, disabled auth when no
auth was set. -/
def candidateContent (b : Builder) (pms : List (Process × ReplicaSetMember)) :
    AutomationConfig :=
  { version := 0
    processes := pms.map Prod.fst
    replicaSets :=
      [ { id := b.name, members := pms.map Prod.snd, protocolVersion := "1" } ]
    versions :=
      if b.versions.isEmpty then [buildDummyMongoDbVersionConfig b.mongodbVersion]
      else b.versions
    options := { downloadBase := "/var/lib/mongodb-mms-automation" }
    auth := match b.auth with
            | some a => a
            | none => disabledAuth
    tls := { mode := "", caFilePath := "", certificateKeyFilePath := "",
             clientCertificateMode := ClientCertificateModeOptional } }

/-- Method `Build()` from `automation_config_builder.go`. `none` models the Go
runtime panic on the unguarded `b.replicaSetHorizons[i]` index; the
`json.Marshal` error paths cannot occur for the total canonical encoding. -/
def Build (b : Builder) : Option AutomationConfig :=
  match collectMembers b.name b.domain b.mongodbVersion b.fcv b.replicaSetHorizons b.members with
  | none => none
  | some pms =>
    let currentAc :=
      applyModifications b.modifications
        { candidateContent b pms with version := b.previousAC.version }
    if acBytes b.previousAC ≠ acBytes currentAc then
      some { currentAc with version := currentAc.version + 1 }
    else
      some currentAc

/-- The freshly built candidate that `Build` compares against the previous
document (before the version bump), for builders without modification hooks. -/
def buildCandidate (b : Builder) : Option AutomationConfig :=
  match collectMembers b.name b.domain b.mongodbVersion b.fcv b.replicaSetHorizons b.members with
  | none => none
  | some pms => some { candidateContent b pms with version := b.previousAC.version }

/-- The process built for member index `i` by the loop in `Build`. -/
def processAt (name domain version fcv : String) (i : Nat) : Process :=
  newProcess (toHostName name i) (name ++ "-" ++ Nat.repr i ++ "." ++ domain) version name fcv

/-- The scenario builder of the spec: three members, engine version "4.0.0",
no TLS, no auth, empty previous document. -/
def scenarioBuilder (name domain : String) : Builder :=
  { newBuilder with
    name := name
    domain := domain
    members := 3
    mongodbVersion := "4.0.0"
    fcv := "4.0.0" }

/-- A concrete two-member builder used by the witness theorems. -/
def witnessBuilder : Builder :=
  { newBuilder with
    name := "mdb"
    domain := "mdb-svc.default.svc.cluster.local"
    members := 2
    mongodbVersion := "4.0.0"
    fcv := "4.0.0" }

/-! ## Controller model

The reconcile-relevant logic of `mongodb_controller.go`, embedded as a pure
pass over the durable cluster state with the outcomes of the external
collaborator calls (Resource Client reads/writes, live StatefulSet
observation) supplied as explicit inputs. -/

inductive StrategyType where
  | rollingUpdate
  | onDelete
deriving DecidableEq, Repr

def lastVersionAnnotationKey : String := "mongodb.com/v1.lastVersion"

def tLSRolledOutAnnotationKey : String := "mongodb.com/v1.tlsRolledOut"

def hasLeftReadyStateAnnotationKey : String := "mongodb.com/v1.hasLeftReadyStateAnnotationKey"

def trueAnnotation : String := "true"

/-- A Go `map[string]string` write `m[k] = v`, on annotation maps
represented as association lists. -/
def mapInsert (m : List (String × String)) (k v : String) : List (String × String) :=
  m.filter (fun kv => kv.1 != k) ++ [(k, v)]

/-- Function `setAnnotations`: applies the provided annotations on top of the
existing ones of the resource. -/
def setAnnotations (existing provided : List (String × String)) : List (String × String) :=
  provided.foldl (fun m kv => mapInsert m kv.1 kv.2) existing

/-- The fields of the MongoDB resource the reconcile logic reads. -/
structure MongoDBResource where
  specVersion : String
  specMembers : Nat
  annotations : List (String × String)
deriving DecidableEq, Repr

/-- Function `isChangingVersion` from `mongodb_controller.go`. -/
def isChangingVersion (mdb : MongoDBResource) : Bool :=
  match mdb.annotations.lookup lastVersionAnnotationKey with
  | some lastVersion => mdb.specVersion != lastVersion && lastVersion != ""
  | none => false

/-- Function `getUpdateStrategyType` from `mongodb_controller.go`. -/
def getUpdateStrategyType (mdb : MongoDBResource) : StrategyType :=
  if !isChangingVersion mdb then StrategyType.rollingUpdate else StrategyType.onDelete

/-- Per-pass observation of the live StatefulSet: whether the marshalled
live object equals the desired one rebuilt from the resource (`areEqual`)
and whether `statefulset.IsReady` holds for the expected member count. -/
structure StsObservation where
  areEqual : Bool
  isReady : Bool
deriving DecidableEq, Repr

/-- Errors surfaced by the Resource Client collaborator. -/
inductive KubeError where
  | notFound
  | other (msg : String)
deriving DecidableEq, Repr

/-- Function `isStatefulSetReady`: when the strategy is on-delete and the
workload is not ready, it first writes the has-left-ready-state flag to the
stored resource, and a failure of that write (`writeError`) aborts with a
surfaced error as in the Go function; otherwise it returns the readiness
verdict together with the stored annotations after the conditional write.
`hasPerformedUpgrade` is read from the in-memory `mdb` fetched at the start
of the pass, not from the stored copy. -/
def isStatefulSetReady (mdb : MongoDBResource) (stsStrategy : StrategyType)
    (obs : StsObservation) (writeError : Option KubeError)
    (stored : List (String × String)) :
    Except KubeError (Bool × List (String × String)) :=
  let writeResult : Except KubeError (List (String × String)) :=
    if stsStrategy = StrategyType.onDelete ∧ obs.isReady = false then
      match writeError with
      | some e => Except.error e
      | none =>
        Except.ok (setAnnotations stored [(hasLeftReadyStateAnnotationKey, trueAnnotation)])
    else Except.ok stored
  match writeResult with
  | Except.error e => Except.error e
  | Except.ok stored1 =>
    let hasPerformedUpgrade :=
      decide (mdb.annotations.lookup hasLeftReadyStateAnnotationKey = some trueAnnotation)
    if stsStrategy = StrategyType.onDelete then
      Except.ok (obs.areEqual && obs.isReady && hasPerformedUpgrade, stored1)
    else
      Except.ok (obs.areEqual && obs.isReady, stored1)

/-- Result type `reconcile.Result` of a pass; `requeueAfterSeconds = 0` means no requeue was
requested. -/
structure ReconcileResult where
  requeueAfterSeconds : Nat
deriving DecidableEq, Repr

/-- The durable cluster-scoped state a pass starts from: the stored resource
annotations and the stored workload update strategy. -/
structure ClusterState where
  mdbAnnotations : List (String × String)
  stsStrategy : StrategyType
deriving DecidableEq, Repr

/-- The desired spec fields of the cluster resource. -/
structure MongoDBSpecFields where
  version : String
  members : Nat
deriving DecidableEq, Repr

/-- Outcomes of the external collaborator calls made during one pass, in
program order (`ensureServiceError` is the error after the already-exists
swallow). -/
structure PassEnv where
  getError : Option KubeError
  ensureACError : Option KubeError
  ensureServiceError : Option KubeError
  tlsValidation : Except KubeError Bool
  createStsError : Option KubeError
  getStsError : Option KubeError
  obs : StsObservation
  readyAnnotationError : Option KubeError
  resetError : Option KubeError
  setAnnotationsError : Option KubeError
  tlsRolloutError : Option KubeError
  statusError : Option KubeError

/-- The in-memory resource a pass works with, fetched at its start. -/
def mkMdb (spec : MongoDBSpecFields) (st : ClusterState) : MongoDBResource :=
  { specVersion := spec.version, specMembers := spec.members,
    annotations := st.mdbAnnotations }

/-- One pass of `Reconcile` from `mongodb_controller.go`: fetch, ensure
automation config, ensure service, validate TLS, create/update the
StatefulSet (writing the strategy `getUpdateStrategyType` selects), check
readiness, reset the update strategy, write the end-of-pass annotations,
complete the TLS rollout, update the status. Returns the result, the
surfaced error, and the durable state after the pass. -/
def reconcile (spec : MongoDBSpecFields) (st : ClusterState) (env : PassEnv) :
    ReconcileResult × Option KubeError × ClusterState :=
  match env.getError with
  | some KubeError.notFound => (⟨0⟩, none, st)
  | some e => (⟨0⟩, some e, st)
  | none =>
    let mdb := mkMdb spec st
    match env.ensureACError with
    | some e => (⟨0⟩, some e, st)
    | none =>
      match env.ensureServiceError with
      | some e => (⟨0⟩, some e, st)
      | none =>
        match env.tlsValidation with
        | Except.error e => (⟨0⟩, some e, st)
        | Except.ok false => (⟨10⟩, none, st)
        | Except.ok true =>
          match env.createStsError with
          | some e => (⟨0⟩, some e, st)
          | none =>
            let st1 : ClusterState := { st with stsStrategy := getUpdateStrategyType mdb }
            match env.getStsError with
            | some e => (⟨0⟩, some e, st1)
            | none =>
              match isStatefulSetReady mdb st1.stsStrategy env.obs
                  env.readyAnnotationError st1.mdbAnnotations with
              | Except.error e => (⟨0⟩, some e, st1)
              | Except.ok readyAnns =>
              let st2 : ClusterState := { st1 with mdbAnnotations := readyAnns.2 }
              if readyAnns.1 = false then (⟨10⟩, none, st2)
              else
                match env.resetError with
                | some e => (⟨0⟩, some e, st2)
                | none =>
                  let st3 : ClusterState :=
                    if isChangingVersion mdb then
                      { st2 with stsStrategy := StrategyType.rollingUpdate }
                    else st2
                  match env.setAnnotationsError with
                  | some e => (⟨0⟩, some e, st3)
                  | none =>
                    let newAnns :=
                      setAnnotations st3.mdbAnnotations
                        [(lastVersionAnnotationKey, spec.version),
                          (hasLeftReadyStateAnnotationKey, "false")]
                    let st4 : ClusterState := { st3 with mdbAnnotations := newAnns }
                    match env.tlsRolloutError with
                    | some e => (⟨0⟩, some e, st4)
                    | none =>
                      match env.statusError with
                      | some e => (⟨0⟩, some e, st4)
                      | none => (⟨0⟩, none, st4)

/-- Concrete spec for the controller witnesses: desired version "4.2.0". -/
def witnessSpec : MongoDBSpecFields :=
  { version := "4.2.0", members := 3 }

/-- Concrete durable state: last reconciled version "4.0.0", upgrade-mode
strategy applied. -/
def witnessState : ClusterState :=
  { mdbAnnotations := [(lastVersionAnnotationKey, "4.0.0")]
    stsStrategy := StrategyType.onDelete }

/-- As `witnessState`, after the has-left-ready-state flag was recorded. -/
def witnessStateLeft : ClusterState :=
  { mdbAnnotations :=
      [(lastVersionAnnotationKey, "4.0.0"),
        (hasLeftReadyStateAnnotationKey, trueAnnotation)]
    stsStrategy := StrategyType.onDelete }

/-- A pass in which every collaborator call succeeds and the workload is
observed ready and matching the desired spec. -/
def witnessEnvOk : PassEnv :=
  { getError := none
    ensureACError := none
    ensureServiceError := none
    tlsValidation := Except.ok true
    createStsError := none
    getStsError := none
    obs := { areEqual := true, isReady := true }
    readyAnnotationError := none
    resetError := none
    setAnnotationsError := none
    tlsRolloutError := none
    statusError := none }

def witnessEnvNotFound : PassEnv :=
  { witnessEnvOk with getError := some KubeError.notFound }

def witnessEnvOtherErr : PassEnv :=
  { witnessEnvOk with getError := some (KubeError.other "boom") }

def witnessEnvTlsNotReady : PassEnv :=
  { witnessEnvOk with tlsValidation := Except.ok false }

def witnessEnvStsNotReady : PassEnv :=
  { witnessEnvOk with obs := { areEqual := true, isReady := false } }

/-! ## Credential engine

The SCRAM credential engine implementation is not part of the source tree
here (only its unit tests are), so it is modelled from the specification:
read-back-and-reuse of valid stored credentials, regeneration with fresh
random salts exactly when the backing password changed, fixed per-mechanism
iteration counts, and a credentials-unavailable failure when neither a
password nor a valid stored set exists. -/

/-- Modelled from the spec: the output of the standard challenge-response
key derivation, idealized as a collision-free (injective) function of the
mechanism, key kind, username, password, salt and iteration count; the
concrete HMAC/SHA computations are outside the source tree. -/
structure DerivedKey where
  mechanism : String
  kind : String
  username : String
  password : String
  salt : String
  iterationCount : Nat
deriving DecidableEq, Repr

/-- Modelled from the spec: one derived credential record per hash
mechanism (`scramcredentials.ScramCreds`): salt, fixed per-mechanism
iteration count, stored key, server key. -/
structure ScramCreds where
  iterationCount : Nat
  salt : String
  storedKey : DerivedKey
  serverKey : DerivedKey
deriving DecidableEq, Repr

def sha1Iterations : Nat := 10000

def sha256Iterations : Nat := 15000

/-- Modelled from the spec: `computeScramShaCredentials` — derive the records
of both mechanisms from the username, password and the two salts, with the
fixed iteration counts. -/
def computeScramShaCredentials (username password sha1Salt sha256Salt : String) :
    ScramCreds × ScramCreds :=
  ( { iterationCount := sha1Iterations
      salt := sha1Salt
      storedKey :=
        { mechanism := "SCRAM-SHA-1", kind := "stored", username := username,
          password := password, salt := sha1Salt, iterationCount := sha1Iterations }
      serverKey :=
        { mechanism := "SCRAM-SHA-1", kind := "server", username := username,
          password := password, salt := sha1Salt, iterationCount := sha1Iterations } },
    { iterationCount := sha256Iterations
      salt := sha256Salt
      storedKey :=
        { mechanism := "SCRAM-SHA-256", kind := "stored", username := username,
          password := password, salt := sha256Salt, iterationCount := sha256Iterations }
      serverKey :=
        { mechanism := "SCRAM-SHA-256", kind := "server", username := username,
          password := password, salt := sha256Salt, iterationCount := sha256Iterations } } )

/-- Modelled from the spec: a persisted credentials secret for a principal;
`none` models a missing or malformed field set. -/
structure CredentialsSecret where
  sha1Creds : Option ScramCreds
  sha256Creds : Option ScramCreds
deriving DecidableEq, Repr

inductive CredError where
  | credentialsUnavailable
  | malformedSecret
deriving DecidableEq, Repr

/-- Modelled from the spec: `readExistingCredentials` — read back an
existing credential secret; fails unless every required field is present
and well-formed. -/
def readExistingCredentials (secret : Option CredentialsSecret) :
    Except CredError (ScramCreds × ScramCreds) :=
  match secret with
  | none => Except.error CredError.credentialsUnavailable
  | some s =>
    match s.sha1Creds, s.sha256Creds with
    | some c1, some c256 => Except.ok (c1, c256)
    | _, _ => Except.error CredError.malformedSecret

/-- Modelled from the spec: the stored records are exactly the ones the
given password derives with their stored salts — i.e. the backing password
has not changed since they were generated. -/
def credsMatchPassword (username password : String) (c1 c256 : ScramCreds) : Bool :=
  decide (computeScramShaCredentials username password c1.salt c256.salt = (c1, c256))

/-- Modelled from the spec: `ensureScramCredentials` (`Ensure`). Reads the
stored set and reuses it verbatim while the backing password is unchanged;
derives and persists a fresh set (caller-supplied fresh random salts) when
the password changed or no valid set exists; fails with a
credentials-unavailable error when there is neither a password nor a valid
stored set. Returns the credential records and the secret after the call. -/
def ensureScramCredentials (username : String) (password : Option String)
    (secret : Option CredentialsSecret) (freshSha1Salt freshSha256Salt : String) :
    Except CredError ((ScramCreds × ScramCreds) × CredentialsSecret) :=
  match password with
  | none =>
    match readExistingCredentials secret with
    | Except.error e => Except.error e
    | Except.ok (c1, c256) =>
      Except.ok ((c1, c256), { sha1Creds := some c1, sha256Creds := some c256 })
  | some pw =>
    match readExistingCredentials secret with
    | Except.ok (c1, c256) =>
      if credsMatchPassword username pw c1 c256 then
        Except.ok ((c1, c256), { sha1Creds := some c1, sha256Creds := some c256 })
      else
        let fresh := computeScramShaCredentials username pw freshSha1Salt freshSha256Salt
        Except.ok (fresh, { sha1Creds := some fresh.1, sha256Creds := some fresh.2 })
    | Except.error _ =>
      let fresh := computeScramShaCredentials username pw freshSha1Salt freshSha256Salt
      Except.ok (fresh, { sha1Creds := some fresh.1, sha256Creds := some fresh.2 })

/-- Credential records of the witness principal, derived from its original
password. -/
def witnessOldCreds : ScramCreds × ScramCreds :=
  computeScramShaCredentials "mdb-0-user" "oldPassword" "saltA" "saltB"

/-! ## Builder lemmas -/

theorem candidateContent_previousAC (b : Builder) (p : AutomationConfig)
    (pms : List (Process × ReplicaSetMember)) :
    candidateContent { b with previousAC := p } pms = candidateContent b pms := rfl

theorem Build_previousAC (b : Builder) (p : AutomationConfig) :
    Build { b with previousAC := p }
      = match collectMembers b.name b.domain b.mongodbVersion b.fcv b.replicaSetHorizons b.members with
        | none => none
        | some pms =>
          let currentAc :=
            applyModifications b.modifications
              { candidateContent b pms with version := p.version }
          if acBytes p ≠ acBytes currentAc then
            some { currentAc with version := currentAc.version + 1 }
          else
            some currentAc := rfl

theorem collectMembers_succ (name domain v fcv : String)
    (hz : Option (List (List (String × String)))) (n : Nat) :
    collectMembers name domain v fcv hz (n + 1)
      = match collectMembers name domain v fcv hz n with
        | none => none
        | some xs =>
          match memberAt name domain v fcv hz n with
          | none => none
          | some x => some (xs ++ [x]) := rfl

theorem memberAt_none_isSome (name domain v fcv : String) (i : Nat) :
    (memberAt name domain v fcv none i).isSome = true := rfl

theorem memberAt_some_isSome_iff (name domain v fcv : String)
    (hs : List (List (String × String))) (i : Nat) :
    (memberAt name domain v fcv (some hs) i).isSome = true ↔ i < hs.length := by
  simp only [memberAt]
  rcases hg : hs.get? i with _ | x
  · have := List.get?_eq_none.mp hg
    simp only [Option.isSome_none, Bool.false_eq_true, false_iff]
    omega
  · have hlt : i < hs.length := by
      by_contra hn
      rw [List.get?_eq_none.mpr (by omega)] at hg
      cases hg
    simp only [Option.isSome_some, true_iff]
    exact hlt

theorem collectMembers_none_isSome (name domain v fcv : String) (n : Nat) :
    (collectMembers name domain v fcv none n).isSome = true := by
  induction n with
  | zero => rfl
  | succ n ih =>
    rw [collectMembers_succ]
    rcases hc : collectMembers name domain v fcv none n with _ | xs
    · rw [hc] at ih; cases ih
    · simp [memberAt]

theorem collectMembers_some_isSome_iff (name domain v fcv : String)
    (hs : List (List (String × String))) (n : Nat) :
    (collectMembers name domain v fcv (some hs) n).isSome = true ↔ n ≤ hs.length := by
  induction n with
  | zero => simp [collectMembers]
  | succ n ih =>
    rw [collectMembers_succ]
    have hmi := memberAt_some_isSome_iff name domain v fcv hs n
    rcases hc : collectMembers name domain v fcv (some hs) n with _ | xs
    · rw [hc] at ih
      simp at ih ⊢
      omega
    · rw [hc] at ih
      simp at ih
      rcases hm : memberAt name domain v fcv (some hs) n with _ | x
      · rw [hm] at hmi
        simp at hmi ⊢
        omega
      · rw [hm] at hmi
        simp at hmi ⊢
        omega

theorem Build_isSome_eq (b : Builder) :
    (Build b).isSome
      = (collectMembers b.name b.domain b.mongodbVersion b.fcv b.replicaSetHorizons b.members).isSome := by
  unfold Build
  rcases collectMembers b.name b.domain b.mongodbVersion b.fcv b.replicaSetHorizons b.members with _ | pms
  · rfl
  · simp only [Option.isSome_some]
    split <;> rfl

/-! ## Claims about `Build` -/

/-- C1: `Build` compares the canonical serialization of the previous document
`D0` against that of the freshly built candidate; when they differ the
version of the returned document is exactly `D0.version + 1`, otherwise it equals
`D0.version`. -/
theorem claim_C1_monotonic_versioning (b : Builder) (ac cand : AutomationConfig)
    (hmods : b.modifications = [])
    (hcand : buildCandidate b = some cand)
    (hbuild : Build b = some ac) :
    (acBytes b.previousAC ≠ acBytes cand → ac.version = b.previousAC.version + 1)
    ∧ (acBytes b.previousAC = acBytes cand → ac.version = b.previousAC.version) := by
  unfold buildCandidate at hcand
  unfold Build at hbuild
  rcases hcm : collectMembers b.name b.domain b.mongodbVersion b.fcv b.replicaSetHorizons b.members with _ | pms
  · rw [hcm] at hcand; cases hcand
  · rw [hcm] at hcand hbuild
    rw [hmods] at hbuild
    simp only [applyModifications] at hbuild
    injection hcand with hcand
    subst hcand
    by_cases h : acBytes b.previousAC ≠ acBytes { candidateContent b pms with version := b.previousAC.version }
    · rw [if_pos h] at hbuild
      injection hbuild with hbuild
      subst hbuild
      exact ⟨fun _ => rfl, fun heq => absurd heq h⟩
    · rw [if_neg h] at hbuild
      injection hbuild with hbuild
      subst hbuild
      exact ⟨fun hne => absurd hne h, fun _ => rfl⟩

theorem claim_C1_monotonic_versioning_witness :
    ∃ b ac cand, b.modifications = [] ∧ buildCandidate b = some cand ∧ Build b = some ac
      ∧ ((acBytes b.previousAC ≠ acBytes cand → ac.version = b.previousAC.version + 1)
        ∧ (acBytes b.previousAC = acBytes cand → ac.version = b.previousAC.version)) :=
  ⟨witnessBuilder, (Build witnessBuilder).get (by decide),
    (buildCandidate witnessBuilder).get (by decide),
    rfl, by decide, by decide,
    claim_C1_monotonic_versioning witnessBuilder _ _ rfl (by decide) (by decide)⟩

/-- C2: building is idempotent — rebuilding with the same spec and
credentials from the document the first build returned yields that same
document (in particular, the version does not change again). -/
theorem claim_C2_idempotence (b : Builder) (d1 : AutomationConfig)
    (hmods : b.modifications = [])
    (h1 : Build b = some d1) :
    Build { b with previousAC := d1 } = some d1 := by
  rw [Build_previousAC]
  unfold Build at h1
  rw [hmods] at h1 ⊢
  rcases hcm : collectMembers b.name b.domain b.mongodbVersion b.fcv b.replicaSetHorizons b.members with _ | pms
  · rw [hcm] at h1; cases h1
  · rw [hcm] at h1
    dsimp only [applyModifications] at h1 ⊢
    split at h1
    · injection h1 with h1
      subst h1
      simp
    · injection h1 with h1
      subst h1
      simp

theorem claim_C2_idempotence_witness :
    ∃ b d1, Build b = some d1
      ∧ Build { b with previousAC := d1 } = some d1 :=
  ⟨witnessBuilder, (Build witnessBuilder).get (by decide), by decide,
    claim_C2_idempotence witnessBuilder _ rfl (by decide)⟩

theorem memberAt_none_eq (name domain v fcv : String) (i : Nat) :
    memberAt name domain v fcv none i
      = some (processAt name domain v fcv i,
          newReplicaSetMember (processAt name domain v fcv i) i none) := rfl

theorem collectMembers_none_eq (name domain v fcv : String) (n : Nat) :
    collectMembers name domain v fcv none n
      = some ((List.range n).map (fun i =>
          (processAt name domain v fcv i,
            newReplicaSetMember (processAt name domain v fcv i) i none))) := by
  induction n with
  | zero => rfl
  | succ n ih =>
    rw [collectMembers_succ, ih, memberAt_none_eq, List.range_succ]
    simp

/-- C4: for every spec without horizons, `Build` computes the per-member
host identifiers deterministically as clusterName-index for index in
`[0, members)`; in the three-member scenario of the spec with engine version
"4.0.0", no TLS, no auth and an empty previous document, the document has
exactly three process entries named name-0, name-1, name-2, one replica-set
entry listing all three, version 1, no TLS block in the serialized output,
and no auth users in the serialized output. -/
theorem claim_C4_hostnames_scenario :
    (∀ b : Builder, b.modifications = [] → b.replicaSetHorizons = none →
      ∀ ac, Build b = some ac →
        ac.processes.map Process.name = (List.range b.members).map (toHostName b.name))
    ∧ (∀ name domain : String, ∃ ac, Build (scenarioBuilder name domain) = some ac
        ∧ ac.processes.map Process.name = [name ++ "-0", name ++ "-1", name ++ "-2"]
        ∧ (∃ rs, ac.replicaSets = [rs]
            ∧ rs.members.map ReplicaSetMember.host = [name ++ "-0", name ++ "-1", name ++ "-2"])
        ∧ ac.version = 1
        ∧ (acBytes ac).lookup "tls" = none
        ∧ ac.auth.users = []
        ∧ (encodeAuthFields ac.auth).lookup "users" = none) := by
  constructor
  · intro b hmods hhz ac hb
    unfold Build at hb
    rw [hhz, collectMembers_none_eq, hmods] at hb
    dsimp only [applyModifications] at hb
    split at hb <;>
      (injection hb with hb; subst hb;
       simp [candidateContent, List.map_map, processAt, newProcess])
  · intro name domain
    unfold Build
    dsimp only [scenarioBuilder, newBuilder]
    rw [collectMembers_none_eq]
    dsimp only [applyModifications]
    rw [if_pos ?hne]
    case hne =>
      intro heq
      have h2 := congrArg (List.lookup "mongoDbVersions") heq
      simp [acBytes, emptyAC, candidateContent, encodeTLSField, List.lookup] at h2
      exact absurd h2 (by decide)
    refine ⟨_, rfl, ?_, ⟨_, rfl, ?_⟩, rfl, ?_, rfl, ?_⟩
    · simp [candidateContent, List.map_map, processAt, newProcess, toHostName,
        List.range_succ, String.append_assoc]
      exact ⟨congrArg (fun s => name ++ s) (show ("-" ++ Nat.repr 0 : String) = "-0" from rfl),
        congrArg (fun s => name ++ s) (show ("-" ++ Nat.repr 1 : String) = "-1" from rfl),
        congrArg (fun s => name ++ s) (show ("-" ++ Nat.repr 2 : String) = "-2" from rfl)⟩
    · simp [candidateContent, List.map_map, processAt, newProcess, newReplicaSetMember,
        toHostName, List.range_succ, String.append_assoc]
      exact ⟨congrArg (fun s => name ++ s) (show ("-" ++ Nat.repr 0 : String) = "-0" from rfl),
        congrArg (fun s => name ++ s) (show ("-" ++ Nat.repr 1 : String) = "-1" from rfl),
        congrArg (fun s => name ++ s) (show ("-" ++ Nat.repr 2 : String) = "-2" from rfl)⟩
    · simp [acBytes, candidateContent, encodeTLSField, List.lookup]
    · simp [candidateContent, disabledAuth, encodeAuthFields, List.lookup]

theorem claim_C4_hostnames_scenario_witness :
    ((Build witnessBuilder).get (by decide)).processes.map Process.name
        = (List.range witnessBuilder.members).map (toHostName witnessBuilder.name)
      ∧ ∃ ac, Build (scenarioBuilder "mdb" "mdb-svc.default.svc.cluster.local") = some ac
          ∧ ac.version = 1 :=
  ⟨claim_C4_hostnames_scenario.1 witnessBuilder rfl rfl _ (by decide),
    by
      obtain ⟨ac, h1, -, -, hv, -, -, -⟩ :=
        claim_C4_hostnames_scenario.2 "mdb" "mdb-svc.default.svc.cluster.local"
      exact ⟨ac, h1, hv⟩⟩

/-- C9: `Build` is total exactly when the horizons list is absent or has at
least as many entries as there are members; a non-`nil` horizons list shorter
than the member count hits the unguarded `b.replicaSetHorizons[i]` index
(modelled as `none`). -/
theorem claim_C9_horizons_bounds (b : Builder) :
    (Build b).isSome = true ↔
      b.replicaSetHorizons = none ∨
        ∃ hs, b.replicaSetHorizons = some hs ∧ b.members ≤ hs.length := by
  rw [Build_isSome_eq]
  rcases hhz : b.replicaSetHorizons with _ | hs
  · simp [collectMembers_none_isSome]
  · rw [collectMembers_some_isSome_iff]
    simp

/-! ## Annotation-map lemmas -/

theorem lookup_mapInsert_self (m : List (String × String)) (k v : String) :
    (mapInsert m k v).lookup k = some v := by
  induction m with
  | nil => simp [mapInsert, List.lookup]
  | cons a m ih =>
    obtain ⟨a1, a2⟩ := a
    by_cases h : a1 = k
    · simpa [mapInsert, List.filter_cons, h] using ih
    · have hb : (k == a1) = false := by simp [Ne.symm h]
      simpa [mapInsert, List.filter_cons, List.lookup, h, hb] using ih

theorem lookup_mapInsert_ne (m : List (String × String)) (k v k' : String)
    (h : k' ≠ k) : (mapInsert m k v).lookup k' = m.lookup k' := by
  have hb : (k' == k) = false := by simp [h]
  induction m with
  | nil => simp [mapInsert, List.lookup, hb]
  | cons a m ih =>
    obtain ⟨a1, a2⟩ := a
    by_cases h2 : a1 = k
    · subst h2
      simpa [mapInsert, List.filter_cons, List.lookup, hb] using ih
    · by_cases h3 : k' = a1
      · subst h3
        have hbne : (k' != k) = true := by simp [h]
        simp [mapInsert, List.filter_cons, List.lookup, h2, hbne]
      · have hb3 : (k' == a1) = false := by simp [h3]
        simpa [mapInsert, List.filter_cons, List.lookup, h2, hb3] using ih

theorem lookup_setAnnotations_notMem (provided : List (String × String)) :
    ∀ (existing : List (String × String)) (k : String),
      k ∉ provided.map Prod.fst →
      (setAnnotations existing provided).lookup k = existing.lookup k := by
  induction provided with
  | nil => intro existing k _; rfl
  | cons p ps ih =>
    intro existing k h
    obtain ⟨p1, p2⟩ := p
    simp only [List.map_cons, List.mem_cons, not_or] at h
    show (setAnnotations (mapInsert existing p1 p2) ps).lookup k = _
    rw [ih _ k h.2, lookup_mapInsert_ne _ _ _ _ h.1]

theorem lookup_setAnnotations_mem (provided : List (String × String)) :
    ∀ (existing : List (String × String)) (k v : String),
      (provided.map Prod.fst).Nodup → (k, v) ∈ provided →
      (setAnnotations existing provided).lookup k = some v := by
  induction provided with
  | nil => intro existing k v _ h; cases h
  | cons p ps ih =>
    intro existing k v hnd hmem
    obtain ⟨p1, p2⟩ := p
    simp only [List.map_cons, List.nodup_cons] at hnd
    rcases List.mem_cons.mp hmem with heq | htail
    · injection heq with h1 h2
      subst h1
      subst h2
      show (setAnnotations (mapInsert existing k v) ps).lookup k = some v
      rw [lookup_setAnnotations_notMem ps _ k hnd.1, lookup_mapInsert_self]
    · exact ih (mapInsert existing p1 p2) k v hnd.2 htail

/-! ## Claims about the controller -/

/-- C5: a "not found" failure of the initial resource fetch terminates the
pass cleanly (no error, no requeue); any other fetch failure is surfaced to
the caller. -/
theorem claim_C5_notfound_clean (spec : MongoDBSpecFields) (st : ClusterState)
    (env : PassEnv) :
    (env.getError = some KubeError.notFound →
      reconcile spec st env = (⟨0⟩, none, st))
    ∧ (∀ m, env.getError = some (KubeError.other m) →
      reconcile spec st env = (⟨0⟩, some (KubeError.other m), st)) := by
  constructor
  · intro h
    unfold reconcile
    rw [h]
  · intro m h
    unfold reconcile
    rw [h]

theorem claim_C5_notfound_clean_witness :
    reconcile witnessSpec witnessState witnessEnvNotFound = (⟨0⟩, none, witnessState)
    ∧ reconcile witnessSpec witnessState witnessEnvOtherErr
        = (⟨0⟩, some (KubeError.other "boom"), witnessState) :=
  ⟨(claim_C5_notfound_clean witnessSpec witnessState witnessEnvNotFound).1 rfl,
    (claim_C5_notfound_clean witnessSpec witnessState witnessEnvOtherErr).2 "boom" rfl⟩

theorem isStatefulSetReady_onDelete_ready (mdb : MongoDBResource)
    (obs : StsObservation) (we : Option KubeError)
    (stored : List (String × String)) (r : Bool × List (String × String))
    (h : isStatefulSetReady mdb StrategyType.onDelete obs we stored = Except.ok r)
    (hr : r.1 = true) :
    obs.areEqual = true ∧ obs.isReady = true ∧
      mdb.annotations.lookup hasLeftReadyStateAnnotationKey = some trueAnnotation := by
  unfold isStatefulSetReady at h
  dsimp only at h
  split at h
  · cases h
  · rw [if_pos rfl] at h
    injection h with h
    subst h
    simp at hr
    exact ⟨hr.1.1, hr.1.2, hr.2⟩

/-- C6: both transient not-ready conditions yield a fixed 10-second requeue
and a nil error: invalid (not yet distributed) TLS configuration, and a
workload whose readiness check comes back (without erroring) as not ready. -/
theorem claim_C6_transient_requeue (spec : MongoDBSpecFields) (st : ClusterState)
    (env : PassEnv)
    (hget : env.getError = none) (hac : env.ensureACError = none)
    (hsvc : env.ensureServiceError = none) :
    (env.tlsValidation = Except.ok false →
      reconcile spec st env = (⟨10⟩, none, st))
    ∧ (env.tlsValidation = Except.ok true → env.createStsError = none →
      env.getStsError = none →
      ∀ r, isStatefulSetReady (mkMdb spec st) (getUpdateStrategyType (mkMdb spec st))
          env.obs env.readyAnnotationError st.mdbAnnotations = Except.ok r →
      r.1 = false →
      (reconcile spec st env).1 = ⟨10⟩ ∧ (reconcile spec st env).2.1 = none) := by
  constructor
  · intro htls
    unfold reconcile
    rw [hget, hac, hsvc, htls]
  · intro htls hcse hgse r hrdy hrf
    unfold reconcile
    rw [hget, hac, hsvc, htls, hcse, hgse]
    dsimp only
    rw [hrdy]
    dsimp only
    rw [if_pos hrf]
    exact ⟨rfl, rfl⟩

theorem claim_C6_transient_requeue_witness :
    reconcile witnessSpec witnessState witnessEnvTlsNotReady = (⟨10⟩, none, witnessState)
    ∧ (reconcile witnessSpec witnessState witnessEnvStsNotReady).1 = ⟨10⟩
    ∧ (reconcile witnessSpec witnessState witnessEnvStsNotReady).2.1 = none :=
  ⟨(claim_C6_transient_requeue witnessSpec witnessState witnessEnvTlsNotReady
      rfl rfl rfl).1 rfl,
    ((claim_C6_transient_requeue witnessSpec witnessState witnessEnvStsNotReady
      rfl rfl rfl).2 rfl rfl rfl
      (false, setAnnotations witnessState.mdbAnnotations
        [(hasLeftReadyStateAnnotationKey, trueAnnotation)])
      rfl rfl).1,
    ((claim_C6_transient_requeue witnessSpec witnessState witnessEnvStsNotReady
      rfl rfl rfl).2 rfl rfl rfl
      (false, setAnnotations witnessState.mdbAnnotations
        [(hasLeftReadyStateAnnotationKey, trueAnnotation)])
      rfl rfl).2⟩

/-- C3: with last-version annotation "4.0.0" and desired version "4.2.0"
the controller selects the on-delete (manual) update strategy; and during a
version change a pass resets the stored strategy back to rolling only if it
observed the workload matching the desired spec and ready, and read the
has-left-ready-state flag as true from the resource. -/
theorem claim_C3_upgrade_gating :
    (∀ spec st, spec.version = "4.2.0" →
      (mkMdb spec st).annotations.lookup lastVersionAnnotationKey = some "4.0.0" →
      getUpdateStrategyType (mkMdb spec st) = StrategyType.onDelete)
    ∧ (∀ spec st env, isChangingVersion (mkMdb spec st) = true →
      st.stsStrategy = StrategyType.onDelete →
      (reconcile spec st env).2.2.stsStrategy = StrategyType.rollingUpdate →
      env.obs.areEqual = true ∧ env.obs.isReady = true ∧
        st.mdbAnnotations.lookup hasLeftReadyStateAnnotationKey = some trueAnnotation) := by
  constructor
  · intro spec st hv hl
    unfold getUpdateStrategyType isChangingVersion
    rw [hl]
    dsimp only [mkMdb]
    rw [hv]
    rfl
  · intro spec st env hchg hstrat hres
    have hstrat1 : getUpdateStrategyType (mkMdb spec st) = StrategyType.onDelete := by
      unfold getUpdateStrategyType
      rw [hchg]
      rfl
    rcases env with ⟨ge, eac, esvc, tlsv, cse, gse, obs, rae, re, sae, tre, ste⟩
    unfold reconcile at hres
    dsimp only at hres ⊢
    rcases ge with _ | e
    · rcases eac with _ | e
      · rcases esvc with _ | e
        · rcases tlsv with e | b
          · simp [hstrat] at hres
          · rcases b with _ | _
            · simp [hstrat] at hres
            · rcases cse with _ | e
              · rcases gse with _ | e
                · rcases hrdy : isStatefulSetReady (mkMdb spec st)
                      (getUpdateStrategyType (mkMdb spec st)) obs rae st.mdbAnnotations
                      with e | r
                  · rw [hrdy] at hres
                    simp [hstrat1] at hres
                  · rw [hrdy] at hres
                    dsimp only at hres
                    by_cases hready : r.1 = false
                    · rw [if_pos hready] at hres
                      simp [hstrat1] at hres
                    · have hr : r.1 = true := by
                        cases hb : r.1
                        · exact absurd hb hready
                        · rfl
                      rw [hstrat1] at hrdy
                      exact isStatefulSetReady_onDelete_ready (mkMdb spec st) obs rae
                        st.mdbAnnotations r hrdy hr
                · simp [hstrat1] at hres
              · simp [hstrat] at hres
        · simp [hstrat] at hres
      · simp [hstrat] at hres
    · rcases e with _ | m <;> simp [hstrat] at hres

theorem claim_C3_upgrade_gating_witness :
    getUpdateStrategyType (mkMdb witnessSpec witnessState) = StrategyType.onDelete
    ∧ (witnessEnvOk.obs.areEqual = true ∧ witnessEnvOk.obs.isReady = true ∧
        witnessStateLeft.mdbAnnotations.lookup hasLeftReadyStateAnnotationKey
          = some trueAnnotation) :=
  ⟨claim_C3_upgrade_gating.1 witnessSpec witnessState rfl (by decide),
    claim_C3_upgrade_gating.2 witnessSpec witnessStateLeft witnessEnvOk
      (by decide) rfl (by decide)⟩

/-- C10: `setAnnotations` applies the provided annotation map on top of the
existing annotations: every provided key now maps to its provided value and
every other key keeps its previous value. -/
theorem claim_C10_annotation_merge (existing provided : List (String × String))
    (hnd : (provided.map Prod.fst).Nodup) :
    (∀ k v, (k, v) ∈ provided →
      (setAnnotations existing provided).lookup k = some v)
    ∧ (∀ k, k ∉ provided.map Prod.fst →
      (setAnnotations existing provided).lookup k = existing.lookup k) :=
  ⟨fun k v hmem => lookup_setAnnotations_mem provided existing k v hnd hmem,
    fun k hk => lookup_setAnnotations_notMem provided existing k hk⟩

theorem claim_C10_annotation_merge_witness :
    (setAnnotations [(tLSRolledOutAnnotationKey, trueAnnotation)]
        [(lastVersionAnnotationKey, "4.2.0"), (hasLeftReadyStateAnnotationKey, "false")]).lookup
        tLSRolledOutAnnotationKey = some trueAnnotation
    ∧ (setAnnotations [(tLSRolledOutAnnotationKey, trueAnnotation)]
        [(lastVersionAnnotationKey, "4.2.0"), (hasLeftReadyStateAnnotationKey, "false")]).lookup
        lastVersionAnnotationKey = some "4.2.0" :=
  ⟨(claim_C10_annotation_merge [(tLSRolledOutAnnotationKey, trueAnnotation)]
      [(lastVersionAnnotationKey, "4.2.0"), (hasLeftReadyStateAnnotationKey, "false")]
      (by decide)).2 tLSRolledOutAnnotationKey (by decide),
    (claim_C10_annotation_merge [(tLSRolledOutAnnotationKey, trueAnnotation)]
      [(lastVersionAnnotationKey, "4.2.0"), (hasLeftReadyStateAnnotationKey, "false")]
      (by decide)).1 lastVersionAnnotationKey "4.2.0" (by decide)⟩

/-! ## Claims about the credential engine -/

/-- C7: when the backing password of a principal changes, ensuring
credentials returns a set whose salts and keys all differ from the prior
set, with the fixed per-mechanism iteration counts: 10000 for SCRAM-SHA-1
and 15000 for SCRAM-SHA-256. -/
theorem claim_C7_credential_change (username oldPassword newPassword : String)
    (c1 c256 : ScramCreds) (s1 s256 : String)
    (hvalid : computeScramShaCredentials username oldPassword c1.salt c256.salt = (c1, c256))
    (hpw : newPassword ≠ oldPassword)
    (hs1 : s1 ≠ c1.salt) (hs256 : s256 ≠ c256.salt) :
    ∃ d1 d256 sec,
      ensureScramCredentials username (some newPassword)
          (some { sha1Creds := some c1, sha256Creds := some c256 }) s1 s256
        = Except.ok ((d1, d256), sec)
      ∧ d1.salt ≠ c1.salt ∧ d1.storedKey ≠ c1.storedKey ∧ d1.serverKey ≠ c1.serverKey
      ∧ d1.iterationCount = 10000
      ∧ d256.salt ≠ c256.salt ∧ d256.storedKey ≠ c256.storedKey
      ∧ d256.serverKey ≠ c256.serverKey
      ∧ d256.iterationCount = 15000 := by
  have hc1 : (computeScramShaCredentials username oldPassword c1.salt c256.salt).1 = c1 :=
    congrArg Prod.fst hvalid
  have hc256 : (computeScramShaCredentials username oldPassword c1.salt c256.salt).2 = c256 :=
    congrArg Prod.snd hvalid
  have hpass1 : c1.storedKey.password = oldPassword := by rw [← hc1]; rfl
  have hserv1 : c1.serverKey.password = oldPassword := by rw [← hc1]; rfl
  have hpass256 : c256.storedKey.password = oldPassword := by rw [← hc256]; rfl
  have hserv256 : c256.serverKey.password = oldPassword := by rw [← hc256]; rfl
  have hmatch : credsMatchPassword username newPassword c1 c256 = false := by
    unfold credsMatchPassword
    rw [decide_eq_false_iff_not]
    intro he
    have h2 := congrArg (fun p => (Prod.fst p).storedKey.password) he
    dsimp [computeScramShaCredentials] at h2
    rw [hpass1] at h2
    exact hpw h2
  refine ⟨(computeScramShaCredentials username newPassword s1 s256).1,
    (computeScramShaCredentials username newPassword s1 s256).2,
    { sha1Creds := some (computeScramShaCredentials username newPassword s1 s256).1,
      sha256Creds := some (computeScramShaCredentials username newPassword s1 s256).2 },
    ?_, ?_, ?_, ?_, rfl, ?_, ?_, ?_, rfl⟩
  · unfold ensureScramCredentials readExistingCredentials
    dsimp only
    rw [hmatch]
    rfl
  · simpa [computeScramShaCredentials] using hs1
  · intro he
    have h2 := congrArg DerivedKey.password he
    dsimp [computeScramShaCredentials] at h2
    rw [hpass1] at h2
    exact hpw h2
  · intro he
    have h2 := congrArg DerivedKey.password he
    dsimp [computeScramShaCredentials] at h2
    rw [hserv1] at h2
    exact hpw h2
  · simpa [computeScramShaCredentials] using hs256
  · intro he
    have h2 := congrArg DerivedKey.password he
    dsimp [computeScramShaCredentials] at h2
    rw [hpass256] at h2
    exact hpw h2
  · intro he
    have h2 := congrArg DerivedKey.password he
    dsimp [computeScramShaCredentials] at h2
    rw [hserv256] at h2
    exact hpw h2

theorem claim_C7_credential_change_witness :
    ∃ d1 d256 sec,
      ensureScramCredentials "mdb-0-user" (some "newPassword")
          (some { sha1Creds := some witnessOldCreds.1, sha256Creds := some witnessOldCreds.2 })
          "saltC" "saltD"
        = Except.ok ((d1, d256), sec)
      ∧ d1.salt ≠ witnessOldCreds.1.salt ∧ d1.storedKey ≠ witnessOldCreds.1.storedKey
      ∧ d1.serverKey ≠ witnessOldCreds.1.serverKey
      ∧ d1.iterationCount = 10000
      ∧ d256.salt ≠ witnessOldCreds.2.salt ∧ d256.storedKey ≠ witnessOldCreds.2.storedKey
      ∧ d256.serverKey ≠ witnessOldCreds.2.serverKey
      ∧ d256.iterationCount = 15000 :=
  claim_C7_credential_change "mdb-0-user" "oldPassword" "newPassword"
    witnessOldCreds.1 witnessOldCreds.2 "saltC" "saltD"
    (by decide) (by decide) (by decide) (by decide)

/-- C8: ensuring credentials is stable: with the same stored password and an
already-valid credential secret, the stored records are read back and reused
verbatim, so both calls return bit-identical records (independently of the
fresh salt source), and the secret is unchanged. -/
theorem claim_C8_credential_stability (username password : String)
    (c1 c256 : ScramCreds) (s1 s256 t1 t256 : String)
    (hvalid : computeScramShaCredentials username password c1.salt c256.salt = (c1, c256)) :
    ensureScramCredentials username (some password)
        (some { sha1Creds := some c1, sha256Creds := some c256 }) s1 s256
      = Except.ok ((c1, c256), { sha1Creds := some c1, sha256Creds := some c256 })
    ∧ ensureScramCredentials username (some password)
        (some { sha1Creds := some c1, sha256Creds := some c256 }) t1 t256
      = Except.ok ((c1, c256), { sha1Creds := some c1, sha256Creds := some c256 }) := by
  have hm : credsMatchPassword username password c1 c256 = true := by
    unfold credsMatchPassword
    rw [decide_eq_true_eq]
    exact hvalid
  constructor <;>
    (unfold ensureScramCredentials readExistingCredentials; dsimp only; rw [hm]; rfl)

theorem claim_C8_credential_stability_witness :
    ensureScramCredentials "mdb-0-user" (some "oldPassword")
        (some { sha1Creds := some witnessOldCreds.1, sha256Creds := some witnessOldCreds.2 })
        "saltC" "saltD"
      = Except.ok ((witnessOldCreds.1, witnessOldCreds.2),
          { sha1Creds := some witnessOldCreds.1, sha256Creds := some witnessOldCreds.2 })
    ∧ ensureScramCredentials "mdb-0-user" (some "oldPassword")
        (some { sha1Creds := some witnessOldCreds.1, sha256Creds := some witnessOldCreds.2 })
        "saltE" "saltF"
      = Except.ok ((witnessOldCreds.1, witnessOldCreds.2),
          { sha1Creds := some witnessOldCreds.1, sha256Creds := some witnessOldCreds.2 }) :=
  claim_C8_credential_stability "mdb-0-user" "oldPassword"
    witnessOldCreds.1 witnessOldCreds.2 "saltC" "saltD" "saltE" "saltF" (by decide)

end MCO
